import Mathlib

/-!
# Verification of the wellness-tracker analytics and CRUD handlers

This development shallowly embeds the server-side handlers of the
mood/medication/supplement/habit tracking application and proves the
specification claims about them.

Modelling conventions:

* JavaScript numbers are modelled as `ℚ` (all quantities appearing in the
  handlers are exact decimal/rational values, no float-precision issue is
  relevant at the granularity of the claims).
* Timestamps and calendar dates are modelled at day granularity as `ℤ`
  day numbers, so the JS expression
  `Math.floor((a.getTime() - b.getTime()) / msPerDay)` becomes `a - b` and
  `Math.ceil((a - b) / msPerDay)` likewise, for midnight-aligned dates.
* `Math.round` in JS rounds half away from zero towards `+∞`
  (`Math.round x = Math.floor (x + 0.5)`), embedded as `jround`.
* Fallible handlers return `Except`; the database tables they touch are
  passed in and returned explicitly as lists of rows.
-/

/-- JS `Math.round`: round half towards positive infinity. -/
def jround (q : ℚ) : ℤ := ⌊q + 1 / 2⌋

/-- `Math.round (q * 100) / 100`: round to two decimal places, as done for
`completion_rate` and `consistency_score` in `get_habit_analytics.ts`. -/
def round2 (q : ℚ) : ℚ := (jround (q * 100) : ℚ) / 100

/-- The `mood_trend` field of `MoodAnalytics` in `create_mood_entry.ts`
(`getMoodAnalytics`). -/
inductive Trend where
  | improving
  | declining
  | stable
deriving DecidableEq, Repr

/-- The mood-trend classification of `getMoodAnalytics`
(`create_mood_entry.ts`): with `n = scores.length ≥ 4` and
`midpoint = ⌊n / 2⌋`, compare the mean of the first `midpoint` entries
(`slice(0, midpoint)`) with the mean of the last `midpoint` entries
(`slice(-midpoint)`); `improving` when the difference exceeds `0.5`,
`declining` when it is below `-0.5`, otherwise `stable`.  Fewer than 4
entries give `stable`.  `scores` is the chronologically ordered list of
`mood_score` values of the entries in the query range. -/
def moodTrend (scores : List ℤ) : Trend :=
  if 4 ≤ scores.length then
    let midpoint := scores.length / 2
    let firstHalf := scores.take midpoint
    let secondHalf := scores.drop (scores.length - midpoint)
    let firstHalfAvg : ℚ := (firstHalf.sum : ℚ) / (firstHalf.length : ℚ)
    let secondHalfAvg : ℚ := (secondHalf.sum : ℚ) / (secondHalf.length : ℚ)
    let difference := secondHalfAvg - firstHalfAvg
    if 1 / 2 < difference then .improving
    else if difference < -(1 / 2) then .declining
    else .stable
  else .stable

/-- The trend classification as the specification words it: the entries are
split into a first half and a second half (here: split at `⌊n / 2⌋`, so the
two halves together cover the whole list), and the second-half mean is
compared against the first-half mean with the same `0.5` thresholds.
This definition follows the spec's words and is compared against
`moodTrend`, which follows the code. -/
def moodTrendSpecHalves (scores : List ℤ) : Trend :=
  if 4 ≤ scores.length then
    let firstHalf := scores.take (scores.length / 2)
    let secondHalf := scores.drop (scores.length / 2)
    let firstHalfAvg : ℚ := (firstHalf.sum : ℚ) / (firstHalf.length : ℚ)
    let secondHalfAvg : ℚ := (secondHalf.sum : ℚ) / (secondHalf.length : ℚ)
    let difference := secondHalfAvg - firstHalfAvg
    if 1 / 2 < difference then .improving
    else if difference < -(1 / 2) then .declining
    else .stable
  else .stable

/-- C1: counterexample.  For the chronological odd-length score list
`[5, 5, 9, 5, 5]` the code returns `stable`, although the mean of the second
half of the entries exceeds the mean of the first half by more than `0.5`
under either way of splitting five entries into a first and a second half
(split after 2: second-half mean `19/3` vs `5`; split after 3: the claim
would then demand `declining` since `5 - 19/3 < -0.5`).  The code excludes
the middle entry from both halves, so the claim's "exactly when" fails. -/
theorem moodTrend_middle_entry_counterexample :
    moodTrend [5, 5, 9, 5, 5] = .stable ∧
    moodTrendSpecHalves [5, 5, 9, 5, 5] = .improving ∧
    ((([9, 5, 5] : List ℤ).sum : ℚ) / 3 - (([5, 5] : List ℤ).sum : ℚ) / 2 > 1 / 2) ∧
    ((([5, 5] : List ℤ).sum : ℚ) / 2 - (([5, 5, 9] : List ℤ).sum : ℚ) / 3 < -(1 / 2)) := by
  refine ⟨by norm_num [moodTrend], by norm_num [moodTrendSpecHalves], by norm_num, by norm_num⟩

/-- C1 (amended): the trend classification compares the mean of the first
`⌊n/2⌋` entries with the mean of the last `⌊n/2⌋` entries (for odd `n` the
middle entry is excluded from both halves); for even-length lists this
agrees with the plain first-half/second-half split of the spec.  Fewer than
4 entries always yield `stable`, and the spec's concrete cases hold:
`[3,4,7,8] ↦ improving`, `[8,7,4,3] ↦ declining`, `[6,5,6,5] ↦ stable`. -/
theorem moodTrend_halves_classification :
    (∀ scores : List ℤ, scores.length % 2 = 0 →
      moodTrend scores = moodTrendSpecHalves scores) ∧
    (∀ scores : List ℤ, scores.length < 4 → moodTrend scores = .stable) ∧
    moodTrend [3, 4, 7, 8] = .improving ∧
    moodTrend [8, 7, 4, 3] = .declining ∧
    moodTrend [6, 5, 6, 5] = .stable := by
  refine ⟨?_, ?_, by norm_num [moodTrend], by norm_num [moodTrend], by norm_num [moodTrend]⟩
  · intro scores h
    have h2 : scores.length - scores.length / 2 = scores.length / 2 := by omega
    simp only [moodTrend, moodTrendSpecHalves, h2]
  · intro scores h
    simp only [moodTrend]
    rw [if_neg (by omega)]

/-- C1 witness: the even-length agreement and the short-list clause of
`moodTrend_halves_classification` applied at concrete inputs. -/
theorem moodTrend_halves_classification_witness :
    moodTrend [1, 2, 3, 9] = moodTrendSpecHalves [1, 2, 3, 9] ∧
    moodTrend [9, 1] = .stable :=
  ⟨moodTrend_halves_classification.1 [1, 2, 3, 9] (by decide),
   moodTrend_halves_classification.2.1 [9, 1] (by decide)⟩

/-! ## Habit analytics: completion rate (`get_habit_analytics.ts`) -/

/-- `totalDays` of `getHabitAnalytics`:
`Math.ceil((end_date - start_date) / msPerDay) + 1` — the inclusive day
count of the query range, at day granularity. -/
def totalDaysInRange (startDay endDay : ℤ) : ℤ := endDay - startDay + 1

/-- `completionRate` of `getHabitAnalytics` before rounding:
`totalDays > 0 ? (totalCompletions / totalDays) * 100 : 0`. -/
def completionRate (totalCompletions : ℕ) (totalDays : ℤ) : ℚ :=
  if 0 < totalDays then ((totalCompletions : ℚ) / (totalDays : ℚ)) * 100 else 0

/-- The `completion_rate` field returned for one habit:
`Math.round(completionRate * 100) / 100`, i.e. the rate rounded to two
decimal places, where `completions` is the list of completion days of the
habit's logs inside the query range. -/
def habitCompletionRate (completions : List ℤ) (startDay endDay : ℤ) : ℚ :=
  round2 (completionRate completions.length (totalDaysInRange startDay endDay))

/-- C2: counterexample.  Over a 14-day inclusive range with 10 total
completions the returned `completion_rate` is `71.43`
(`Math.round((10/14*100) * 100) / 100`), not `round(10/14*100) = 71`. -/
theorem habitCompletionRate_counterexample :
    habitCompletionRate [1, 2, 3, 4, 5, 6, 7, 8, 9, 10] 0 13 = 7143 / 100 ∧
    ((7143 : ℚ) / 100 ≠ 71) := by
  constructor
  · norm_num [habitCompletionRate, completionRate, totalDaysInRange, round2, jround]
  · norm_num

/-- C2 (amended): `completion_rate` equals total logs in range divided by
the inclusive day count of the range (`end − start` in days, plus one),
times 100, rounded to two decimal places; for a 14-day inclusive range with
10 total completions it equals `71.43`. -/
theorem habitCompletionRate_formula :
    (∀ (s e : ℤ) (completions : List ℤ), 0 < e - s + 1 →
      habitCompletionRate completions s e =
        round2 ((completions.length : ℚ) / ((e - s + 1 : ℤ) : ℚ) * 100)) ∧
    (∀ (s : ℤ) (completions : List ℤ), completions.length = 10 →
      habitCompletionRate completions s (s + 13) = 7143 / 100) := by
  constructor
  · intro s e completions h
    simp only [habitCompletionRate, completionRate, totalDaysInRange]
    rw [if_pos (by omega)]
  · intro s completions h
    simp only [habitCompletionRate, completionRate, totalDaysInRange, h]
    have h14 : s + 13 - s + 1 = (14 : ℤ) := by ring
    rw [h14, if_pos (by norm_num)]
    norm_num [round2, jround]

/-- C2 witness: the amended completion-rate formula applied at a concrete
range and log list. -/
theorem habitCompletionRate_formula_witness :
    habitCompletionRate [3, 5] 0 3 = round2 (((2 : ℕ) : ℚ) / ((4 : ℤ) : ℚ) * 100) ∧
    habitCompletionRate [1, 2, 3, 4, 5, 6, 7, 8, 9, 11] 2 (2 + 13) = 7143 / 100 :=
  ⟨habitCompletionRate_formula.1 0 3 [3, 5] (by norm_num),
   habitCompletionRate_formula.2 2 [1, 2, 3, 4, 5, 6, 7, 8, 9, 11] (by decide)⟩

/-! ## Habit analytics: streaks (`calculateStreaks` in `get_habit_analytics.ts`) -/

/-- The `while` loop of `calculateStreaks` computing the current streak.
`sortedDesc` is the completion-date list sorted most-recent-first,
`checkDate` starts at the query range's end date.  A day difference of `0`
counts the completion and moves both the check date and the list index; a
difference of exactly `1` only moves the check date back (the one-day gap
is skipped); any other difference ends the loop. -/
def currentStreakLoop : List ℤ → ℤ → ℕ → ℕ
  | [], _, acc => acc
  | d :: ds, checkDate, acc =>
    if checkDate - d = 0 then currentStreakLoop ds (checkDate - 1) (acc + 1)
    else if checkDate - d = 1 then currentStreakLoop (d :: ds) (checkDate - 1) acc
    else acc
termination_by l c _ => (l.length, (c - l.headD 0).toNat)

/-- The `for` loop of `calculateStreaks` computing the longest streak over
the ascending-sorted dates: a day-to-day difference of `1` extends the
running streak, anything else closes it. -/
def longestStreakLoop : List ℤ → ℤ → ℕ → ℕ → ℕ
  | [], _, longest, temp => max longest temp
  | d :: ds, prev, longest, temp =>
    if d - prev = 1 then longestStreakLoop ds d longest (temp + 1)
    else longestStreakLoop ds d (max longest temp) 1

/-- `calculateStreaks` of `get_habit_analytics.ts`: `(current, longest)`
streaks for a habit's completion dates and the query's end date. -/
def calculateStreaks (completionDates : List ℤ) (endDate : ℤ) : ℕ × ℕ :=
  if completionDates = [] then (0, 0)
  else
    let sortedDesc := completionDates.insertionSort (· ≥ ·)
    let current := currentStreakLoop sortedDesc endDate 0
    let sortedAsc := completionDates.insertionSort (· ≤ ·)
    let longest :=
      match sortedAsc with
      | [] => 0
      | d :: ds => longestStreakLoop ds d 0 1
    (current, longest)

/-- Step lemma: day difference `0` counts the completion. -/
theorem currentStreakLoop_hit (c d : ℤ) (ds : List ℤ) (acc : ℕ) (h : c - d = 0) :
    currentStreakLoop (d :: ds) c acc = currentStreakLoop ds (c - 1) (acc + 1) := by
  rw [currentStreakLoop, if_pos h]

/-- Step lemma: day difference `1` (a one-day gap) only moves the check
date back; the streak continues. -/
theorem currentStreakLoop_skip (c d : ℤ) (ds : List ℤ) (acc : ℕ) (h : c - d = 1) :
    currentStreakLoop (d :: ds) c acc = currentStreakLoop (d :: ds) (c - 1) acc := by
  rw [currentStreakLoop, if_neg (by omega), if_pos h]

/-- Step lemma: any other day difference ends the current streak. -/
theorem currentStreakLoop_stop (c d : ℤ) (ds : List ℤ) (acc : ℕ)
    (h0 : c - d ≠ 0) (h1 : c - d ≠ 1) :
    currentStreakLoop (d :: ds) c acc = acc := by
  rw [currentStreakLoop, if_neg h0, if_neg h1]

theorem currentStreakLoop_nil (c : ℤ) (acc : ℕ) : currentStreakLoop [] c acc = acc := by
  rw [currentStreakLoop]

/-- On a descending date list whose consecutive entries are 1 or 2 days
apart, the loop anchored at the most recent date counts every entry. -/
theorem currentStreakLoop_consecutive :
    ∀ (ds : List ℤ) (d : ℤ),
      List.Chain' (fun a b => a - b = 1 ∨ a - b = 2) (d :: ds) →
      ∀ acc : ℕ, currentStreakLoop (d :: ds) d acc = acc + ds.length + 1 := by
  intro ds
  induction ds with
  | nil =>
    intro d _ acc
    rw [currentStreakLoop_hit _ _ _ _ (by omega), currentStreakLoop_nil]
    simp
  | cons d2 ds2 ih =>
    intro d hch acc
    obtain ⟨hgap, hch2⟩ := List.chain'_cons.mp hch
    rw [currentStreakLoop_hit _ _ _ _ (by omega)]
    rcases hgap with h1 | h2
    · have hd : d - 1 = d2 := by omega
      rw [hd, ih d2 hch2 (acc + 1)]
      simp only [List.length_cons]
      omega
    · rw [currentStreakLoop_skip _ _ _ _ (by omega)]
      have hd : d - 1 - 1 = d2 := by omega
      rw [hd, ih d2 hch2 (acc + 1)]
      simp only [List.length_cons]
      omega

/-- C9: counterexample.  Completions on days 8 and 10 with the range ending
on day 10: day 9 has no completion, yet the current streak is 2, not 1 —
the gap of exactly one day does not end the current streak (the
`daysDiff === 1` branch of the loop skips it). -/
theorem calculateStreaks_one_day_gap_counterexample :
    (calculateStreaks [10, 8] 10).1 = 2 ∧ (calculateStreaks [10, 8] 10).1 ≠ 1 := by
  have h : (calculateStreaks [10, 8] 10).1 = 2 := by
    simp only [calculateStreaks]
    rw [if_neg (by simp)]
    norm_num [List.insertionSort, List.orderedInsert]
    rw [currentStreakLoop_hit _ _ _ _ (by norm_num)]
    norm_num
    rw [currentStreakLoop_skip _ _ _ _ (by norm_num)]
    norm_num
    rw [currentStreakLoop_hit _ _ _ _ (by norm_num)]
    rw [currentStreakLoop_nil]
  exact ⟨h, by rw [h]; decide⟩

/-- C9 (amended): the current streak scans backward from the query range's
end date with single-day gap tolerance: a missing day ends the streak only
as part of a gap of two or more days, while a gap of exactly one day is
skipped.  Concretely, for a nonempty completion list `d :: ds` that is
descending with consecutive completions 1 or 2 days apart and whose most
recent completion is at the end date or one day before it, the current
streak counts every completion: it equals `ds.length + 1`. -/
theorem calculateStreaks_current_singleDayGapTolerance :
    ∀ (d : ℤ) (ds : List ℤ) (endDate : ℤ),
      List.Chain' (fun a b => a - b = 1 ∨ a - b = 2) (d :: ds) →
      (d = endDate ∨ d = endDate - 1) →
      (calculateStreaks (d :: ds) endDate).1 = ds.length + 1 := by
  intro d ds endDate hch hhead
  have hdesc : List.Chain' (fun a b : ℤ => b < a) (d :: ds) :=
    hch.imp (fun h => by rcases h with h | h <;> omega)
  have hpw : List.Pairwise (fun a b : ℤ => b < a) (d :: ds) :=
    List.chain'_iff_pairwise.mp hdesc
  have hsorted : List.Sorted (· ≥ ·) (d :: ds) :=
    hpw.imp (fun h => le_of_lt h)
  simp only [calculateStreaks]
  rw [if_neg (by simp)]
  simp only [List.Sorted.insertionSort_eq hsorted]
  rcases hhead with h | h
  · subst h
    rw [currentStreakLoop_consecutive ds d hch 0]
    omega
  · have hE : endDate = d + 1 := by omega
    subst hE
    rw [currentStreakLoop_skip _ _ _ _ (by omega)]
    have hd : d + 1 - 1 = d := by omega
    rw [hd, currentStreakLoop_consecutive ds d hch 0]
    omega

/-- C9 witness: `calculateStreaks_current_singleDayGapTolerance` applied to
completions on days 10, 9 and 7 with the range ending on day 10. -/
theorem calculateStreaks_current_singleDayGapTolerance_witness :
    (calculateStreaks [10, 9, 7] 10).1 = 3 :=
  calculateStreaks_current_singleDayGapTolerance 10 [9, 7] 10
    (by norm_num [List.chain'_cons, List.chain'_singleton]) (Or.inl rfl)

/-! ## Adherence analytics (`get_adherence_analytics.ts`) -/

/-- JS `\s` whitespace (ASCII part), used for `trim` and the frequency
regex. -/
def jsIsSpace (c : Char) : Bool :=
  c = ' ' || c = '\t' || c = '\n' || c = '\r' || c = '\x0b' || c = '\x0c'

/-- JS `parseInt` on a run of decimal digits. -/
def digitsToNat (ds : List Char) : ℕ :=
  ds.foldl (fun a c => 10 * a + (c.toNat - '0'.toNat)) 0

/-- The part of the frequency regex
`/(\d+)\s*(?:x|times?)\s*(?:per\s*)?(?:day|daily)/` after the digit run:
optional whitespace, `x` or `time`/`times`, optional whitespace, an
optional `per` with trailing whitespace, then `day` or `daily`. -/
def matchAfterNum (l : List Char) : Bool :=
  let l1 := l.dropWhile jsIsSpace
  let tailMatch := fun (l2 : List Char) =>
    let l3 := l2.dropWhile jsIsSpace
    let l4 := if ([ 'p', 'e', 'r' ] : List Char).isPrefixOf l3 then
        (l3.drop 3).dropWhile jsIsSpace
      else l3
    ([ 'd', 'a', 'y' ] : List Char).isPrefixOf l4 ||
      ([ 'd', 'a', 'i', 'l', 'y' ] : List Char).isPrefixOf l4
  (if ([ 'x' ] : List Char).isPrefixOf l1 then tailMatch (l1.drop 1) else false) ||
    (if ([ 't', 'i', 'm', 'e', 's' ] : List Char).isPrefixOf l1 then
      tailMatch (l1.drop 5) else false) ||
    (if ([ 't', 'i', 'm', 'e' ] : List Char).isPrefixOf l1 then
      tailMatch (l1.drop 4) else false)

/-- Leftmost match of `freq.match(/(\d+)\s*(?:x|times?)\s*(?:per\s*)?(?:day|daily)/)`
with the captured digit run parsed as a number. -/
def findNumericFreq : List Char → Option ℕ
  | [] => none
  | c :: rest =>
    let digs := (c :: rest).takeWhile Char.isDigit
    let after := (c :: rest).dropWhile Char.isDigit
    if digs ≠ [] ∧ matchAfterNum after then some (digitsToNat digs)
    else findNumericFreq rest

/-- JS `String.prototype.includes`. -/
def containsSubstr (s pat : List Char) : Bool :=
  s.tails.any (fun t => pat.isPrefixOf t)

/-- `parseFrequencyToDailyDoses` of `get_adherence_analytics.ts`: the
frequency string is lowercased and trimmed, the numeric regex is tried
first, then the keyword chain; `weekly` becomes the fractional daily rate
`1/7`, `as needed`/`prn` the sentinel `0`, anything unrecognized `1`. -/
def parseFrequencyToDailyDoses (frequency : String) : ℚ :=
  let lowered := frequency.toList.map Char.toLower
  let freq := ((lowered.dropWhile jsIsSpace).reverse.dropWhile jsIsSpace).reverse
  let has := fun (pat : String) => containsSubstr freq pat.toList
  match findNumericFreq freq with
  | some n => (n : ℚ)
  | none =>
    if has "twice" || has "2" || freq == "bid".toList then 2
    else if has "three" || has "3" || freq == "tid".toList then 3
    else if has "four" || has "4" || freq == "qid".toList then 4
    else if has "daily" || has "once" || freq == "qd".toList then 1
    else if has "weekly" then 1 / 7
    else if has "as needed" || has "prn" then 0
    else 1

/-- `calculateExpectedDoses`: `0` for as-needed items, otherwise the daily
rate times the inclusive day count (`Math.floor((end-start)/msPerDay) + 1`,
exact at day granularity), rounded. -/
def calculateExpectedDoses (frequency : String) (startDay endDay : ℤ) : ℤ :=
  let dailyDoses := parseFrequencyToDailyDoses frequency
  if dailyDoses = 0 then 0
  else jround (dailyDoses * ((endDay - startDay) + 1))

/-- The `adherence_rate` computation of `getAdherenceAnalytics`:
`total_expected > 0 ? Math.round(total_logged/total_expected*100) : 0`,
then `Math.min(·, 100)`. -/
def adherenceRate (totalLogged : ℕ) (totalExpected : ℤ) : ℤ :=
  min (if 0 < totalExpected then jround ((totalLogged : ℚ) / (totalExpected : ℚ) * 100)
       else 0) 100

/-- Adherence rate of one active medication/supplement with `totalLogged`
logs in the query range. -/
def itemAdherenceRate (frequency : String) (totalLogged : ℕ) (startDay endDay : ℤ) : ℤ :=
  adherenceRate totalLogged (calculateExpectedDoses frequency startDay endDay)

/-- C3: for a `"daily"` item over a 7-day inclusive range, 7 logs give
adherence 100 and 4 logs give `round(4/7*100) = 57`; an `"as needed"` item
(0 expected doses) has adherence 0 no matter how many logs exist; and the
rate is always capped at 100. -/
theorem itemAdherenceRate_daily_and_prn :
    (∀ s : ℤ, itemAdherenceRate "daily" 7 s (s + 6) = 100) ∧
    (∀ s : ℤ, itemAdherenceRate "daily" 4 s (s + 6) = 57) ∧
    (∀ (s e : ℤ) (n : ℕ), itemAdherenceRate "as needed" n s e = 0) ∧
    (∀ (freq : String) (n : ℕ) (s e : ℤ), itemAdherenceRate freq n s e ≤ 100) := by
  have hdaily : parseFrequencyToDailyDoses "daily" = 1 := by decide
  have hprn : parseFrequencyToDailyDoses "as needed" = 0 := by decide
  refine ⟨?_, ?_, ?_, ?_⟩
  · intro s
    have h7 : (s + 6) - s + 1 = (7 : ℤ) := by ring
    simp only [itemAdherenceRate, calculateExpectedDoses, adherenceRate, hdaily, h7]
    norm_num [jround]
  · intro s
    have h7 : (s + 6) - s + 1 = (7 : ℤ) := by ring
    simp only [itemAdherenceRate, calculateExpectedDoses, adherenceRate, hdaily, h7]
    norm_num [jround]
  · intro s e n
    simp only [itemAdherenceRate, calculateExpectedDoses, adherenceRate, hprn]
    norm_num
  · intro freq n s e
    simp only [itemAdherenceRate, adherenceRate]
    exact min_le_right _ _

/-- The `while` loop of `calculateStreakDays`: walk backward one day at a
time while the day's logged-dose count meets the daily requirement,
incrementing the streak; after each increment the guard
`if (streakDays > 365) break` stops runaway streaks.  (The JS
`streakDays++` followed by the check is written here as
`streakDays + 1`.) -/
def streakDaysLoop (meets : ℤ → Bool) (currentDate : ℤ) (streakDays : ℕ) : ℕ :=
  if meets currentDate then
    if 365 < streakDays + 1 then streakDays + 1
    else streakDaysLoop meets (currentDate - 1) (streakDays + 1)
  else streakDays
termination_by 366 - streakDays

/-- `calculateStreakDays` of `get_adherence_analytics.ts`: logs are grouped
by calendar day (`logDays.count d` is the dose count of day `d`), and the
scan starts at wall-clock today, a parameter of this model. -/
def calculateStreakDays (logDays : List ℤ) (frequency : String) (today : ℤ) : ℕ :=
  if logDays = [] then 0
  else
    let dailyDoses := parseFrequencyToDailyDoses frequency
    if dailyDoses = 0 then 0
    else streakDaysLoop (fun d => decide (dailyDoses ≤ ((logDays.count d : ℕ) : ℚ))) today 0

/-- The loop never returns more than 366 when started at 365 or less. -/
theorem streakDaysLoop_le (meets : ℤ → Bool) :
    ∀ (fuel : ℕ) (c : ℤ) (s : ℕ), 366 - s ≤ fuel → s ≤ 365 →
      streakDaysLoop meets c s ≤ 366 := by
  intro fuel
  induction fuel with
  | zero => intro c s hf hs; omega
  | succ k ih =>
    intro c s hf hs
    rw [streakDaysLoop]
    split
    · split
      · omega
      · exact ih (c - 1) (s + 1) (by omega) (by omega)
    · omega

/-- When every day from `c - (365 - s)` through `c` meets the requirement,
the loop runs to the cap and returns 366. -/
theorem streakDaysLoop_full (meets : ℤ → Bool) :
    ∀ (fuel : ℕ) (c : ℤ) (s : ℕ), 366 - s ≤ fuel → s ≤ 365 →
      (∀ d : ℤ, c - (365 - (s : ℤ)) ≤ d → d ≤ c → meets d = true) →
      streakDaysLoop meets c s = 366 := by
  intro fuel
  induction fuel with
  | zero => intro c s hf hs _; omega
  | succ k ih =>
    intro c s hf hs hmeets
    rw [streakDaysLoop]
    have hc : meets c = true := hmeets c (by omega) le_rfl
    rw [if_pos hc]
    split
    · omega
    · rename_i hlt
      apply ih (c - 1) (s + 1) (by omega) (by omega)
      intro d h1 h2
      exact hmeets d (by push_cast at h1 ⊢; omega) (by omega)

/-- C10: `streak_days` is always at most 366 — the backward scan stops once
the streak count exceeds 365 — and a daily-frequency log history covering
400 consecutive days up to today indeed yields exactly 366. -/
theorem calculateStreakDays_capped_at_366 :
    (∀ (logDays : List ℤ) (frequency : String) (today : ℤ),
      calculateStreakDays logDays frequency today ≤ 366) ∧
    calculateStreakDays ((List.range 400).map (fun n : ℕ => (n : ℤ))) "daily" 399 = 366 := by
  constructor
  · intro logDays frequency today
    simp only [calculateStreakDays]
    split
    · omega
    · split
      · omega
      · exact streakDaysLoop_le _ 366 today 0 (by omega) (by omega)
  · have hdaily : parseFrequencyToDailyDoses "daily" = 1 := by decide
    have hne : ((List.range 400).map (fun n : ℕ => (n : ℤ))) ≠ [] := by
      intro h
      simp at h
    simp only [calculateStreakDays, hdaily]
    rw [if_neg hne, if_neg (by norm_num : ¬(1 : ℚ) = 0)]
    apply streakDaysLoop_full _ 366 399 0 (by omega) (by omega)
    intro d h1 h2
    have hd0 : (0 : ℤ) ≤ d := by omega
    have hlt : d.toNat < 400 := by omega
    have heq : ((d.toNat : ℤ)) = d := by omega
    have hmem : d ∈ (List.range 400).map (fun n : ℕ => (n : ℤ)) :=
      List.mem_map.mpr ⟨d.toNat, List.mem_range.mpr hlt, heq⟩
    have hcount : 1 ≤ ((List.range 400).map (fun n : ℕ => (n : ℤ))).count d :=
      List.count_pos_iff.mpr hmem
    exact decide_eq_true (by exact_mod_cast hcount)

/-! ## CRUD handlers: data model -/

/-- Error taxonomy of the handlers (thrown `Error`s in the source, plus the
zod validation rejection issued before a handler runs). -/
inductive HandlerError where
  | notFound
  | ownershipViolation
  | validationError
deriving DecidableEq, Repr

/-- JS `value || null` applied to an optional string: `undefined`/`null`
and the empty string (falsy) become `null`. -/
def jsOrNull (s : Option String) : Option String :=
  match s with
  | some v => if v = "" then none else some v
  | none => none

/-- A parent entity row (medication, supplement or habit): the fields read
by the log-creation ownership check. -/
structure Entity where
  id : ℤ
  user_id : String
deriving DecidableEq, Repr

/-- A log row as inserted by the log-creation handlers (the store-assigned
`id`/`created_at` are omitted from the model). -/
structure LogRow where
  parent_id : ℤ
  user_id : String
  taken_at : ℤ
  notes : Option String
deriving DecidableEq, Repr

/-- Input of `createMedicationLogInputSchema` /
`createSupplementLogInputSchema` / `createHabitLogInputSchema`: parent id,
user id, optional timestamp, optional notes. -/
structure CreateLogInput where
  parent_id : ℤ
  user_id : String
  taken_at : Option ℤ
  notes : Option String
deriving DecidableEq, Repr

/-- `createMedicationLog` (`create_medication_log.ts`): select the
medication rows with the input's id, throw `Medication not found` when none
exists, throw the ownership error when the first row's `user_id` differs
from the input's, otherwise insert the log row
(`taken_at: input.taken_at || new Date()`, `notes: input.notes || null`).
The returned list is the log table after the call; a thrown error happens
before the insert, so the table is returned unchanged. -/
def createMedicationLog (medications : List Entity) (logs : List LogRow)
    (input : CreateLogInput) (now : ℤ) : Except HandlerError LogRow × List LogRow :=
  match (medications.filter (fun m => m.id = input.parent_id)).head? with
  | none => (.error .notFound, logs)
  | some m =>
    if m.user_id ≠ input.user_id then (.error .ownershipViolation, logs)
    else
      let row : LogRow :=
        ⟨input.parent_id, input.user_id, input.taken_at.getD now, jsOrNull input.notes⟩
      (.ok row, logs ++ [row])

/-- `createSupplementLog` (`create_supplement_log.ts`): same checks against
the supplements table. -/
def createSupplementLog (supplements : List Entity) (logs : List LogRow)
    (input : CreateLogInput) (now : ℤ) : Except HandlerError LogRow × List LogRow :=
  match (supplements.filter (fun s => s.id = input.parent_id)).head? with
  | none => (.error .notFound, logs)
  | some s =>
    if s.user_id ≠ input.user_id then (.error .ownershipViolation, logs)
    else
      let row : LogRow :=
        ⟨input.parent_id, input.user_id, input.taken_at.getD now, jsOrNull input.notes⟩
      (.ok row, logs ++ [row])

/-- `createHabitLog` (`create_habit_log.ts`): same checks against the
habits table (`completed_at` plays the role of `taken_at`). -/
def createHabitLog (habits : List Entity) (logs : List LogRow)
    (input : CreateLogInput) (now : ℤ) : Except HandlerError LogRow × List LogRow :=
  match (habits.filter (fun h => h.id = input.parent_id)).head? with
  | none => (.error .notFound, logs)
  | some h =>
    if h.user_id ≠ input.user_id then (.error .ownershipViolation, logs)
    else
      let row : LogRow :=
        ⟨input.parent_id, input.user_id, input.taken_at.getD now, jsOrNull input.notes⟩
      (.ok row, logs ++ [row])

/-- C4: each log-creation handler fails with the not-found error and leaves
the log table unchanged when no parent row has the input's id; fails with
the ownership error and leaves the table unchanged when the parent exists
but belongs to a different user; and otherwise inserts exactly one log row
carrying the input's parent id and user id. -/
theorem createLog_ownership_checks :
    ∀ (parents : List Entity) (logs : List LogRow) (input : CreateLogInput) (now : ℤ),
      ((parents.filter (fun p => p.id = input.parent_id)).head? = none →
        createMedicationLog parents logs input now = (.error .notFound, logs) ∧
        createSupplementLog parents logs input now = (.error .notFound, logs) ∧
        createHabitLog parents logs input now = (.error .notFound, logs)) ∧
      (∀ p, (parents.filter (fun q => q.id = input.parent_id)).head? = some p →
        p.user_id ≠ input.user_id →
        createMedicationLog parents logs input now = (.error .ownershipViolation, logs) ∧
        createSupplementLog parents logs input now = (.error .ownershipViolation, logs) ∧
        createHabitLog parents logs input now = (.error .ownershipViolation, logs)) ∧
      (∀ p, (parents.filter (fun q => q.id = input.parent_id)).head? = some p →
        p.user_id = input.user_id →
        createMedicationLog parents logs input now =
          (.ok ⟨input.parent_id, input.user_id, input.taken_at.getD now, jsOrNull input.notes⟩,
            logs ++ [⟨input.parent_id, input.user_id, input.taken_at.getD now,
              jsOrNull input.notes⟩]) ∧
        createSupplementLog parents logs input now =
          (.ok ⟨input.parent_id, input.user_id, input.taken_at.getD now, jsOrNull input.notes⟩,
            logs ++ [⟨input.parent_id, input.user_id, input.taken_at.getD now,
              jsOrNull input.notes⟩]) ∧
        createHabitLog parents logs input now =
          (.ok ⟨input.parent_id, input.user_id, input.taken_at.getD now, jsOrNull input.notes⟩,
            logs ++ [⟨input.parent_id, input.user_id, input.taken_at.getD now,
              jsOrNull input.notes⟩])) := by
  intro parents logs input now
  refine ⟨?_, ?_, ?_⟩
  · intro h
    refine ⟨?_, ?_, ?_⟩ <;> simp only [createMedicationLog, createSupplementLog,
      createHabitLog, h]
  · intro p hp hne
    refine ⟨?_, ?_, ?_⟩ <;>
      simp only [createMedicationLog, createSupplementLog, createHabitLog, hp] <;>
      rw [if_pos hne]
  · intro p hp heq
    refine ⟨?_, ?_, ?_⟩ <;>
      simp only [createMedicationLog, createSupplementLog, createHabitLog, hp] <;>
      rw [if_neg (by simp [heq])]

/-- C4 witness: `createLog_ownership_checks` applied at a one-parent store,
exercising the missing-parent, wrong-owner and success branches. -/
theorem createLog_ownership_checks_witness :
    createMedicationLog [⟨1, "alice"⟩] [] ⟨2, "alice", none, none⟩ 0 =
      (.error .notFound, []) ∧
    createSupplementLog [⟨1, "alice"⟩] [] ⟨1, "bob", none, none⟩ 0 =
      (.error .ownershipViolation, []) ∧
    createHabitLog [⟨1, "alice"⟩] [] ⟨1, "alice", some 4, some "hi"⟩ 0 =
      (.ok ⟨1, "alice", 4, some "hi"⟩, [⟨1, "alice", 4, some "hi"⟩]) :=
  ⟨((createLog_ownership_checks [⟨1, "alice"⟩] [] ⟨2, "alice", none, none⟩ 0).1
      (by decide)).1,
   (((createLog_ownership_checks [⟨1, "alice"⟩] [] ⟨1, "bob", none, none⟩ 0).2.1
      ⟨1, "alice"⟩ (by decide) (by decide)).2.1),
   (((createLog_ownership_checks [⟨1, "alice"⟩] [] ⟨1, "alice", some 4, some "hi"⟩ 0).2.2
      ⟨1, "alice"⟩ (by decide) (by decide)).2.2)⟩

/-! ## Mood entries: schema validation, create, update -/

/-- A `mood_entries` row (`db/schema.ts`): the mood score is kept as a JS
number (`ℚ` in the model) so that the validation claim about non-integer
inputs is statable. -/
structure MoodEntry where
  id : ℤ
  user_id : String
  mood_score : ℚ
  notes : Option String
  created_at : ℤ
  updated_at : ℤ
deriving DecidableEq, Repr

/-- `moodScaleSchema = z.number().int().min(1).max(10)`: accepts exactly
the integers 1..10 (`Number.isInteger` is `den = 1` on `ℚ`). -/
def moodScaleValid (q : ℚ) : Bool :=
  decide (q.den = 1) && decide (1 ≤ q) && decide (q ≤ 10)

/-- `createMoodEntryInputSchema`: `user_id`, `mood_score`, optional
nullable `notes`. -/
structure CreateMoodEntryInput where
  user_id : String
  mood_score : ℚ
  notes : Option String
deriving DecidableEq, Repr

/-- `createMoodEntry` (`create_mood_entry.ts`): insert the row; the store
assigns `id` and the timestamps, `notes: input.notes || null`. -/
def createMoodEntry (entries : List MoodEntry) (input : CreateMoodEntryInput)
    (newId now : ℤ) : List MoodEntry :=
  entries ++ [⟨newId, input.user_id, input.mood_score, jsOrNull input.notes, now, now⟩]

/-- The `createMoodEntry` tRPC procedure (`index.ts`): the zod input schema
runs before the handler, so an invalid `mood_score` is rejected and nothing
is inserted. -/
def createMoodEntryRoute (entries : List MoodEntry) (input : CreateMoodEntryInput)
    (newId now : ℤ) : Except HandlerError (List MoodEntry) :=
  if moodScaleValid input.mood_score then .ok (createMoodEntry entries input newId now)
  else .error .validationError

/-- `updateMoodEntryInputSchema`: `id`, optional `mood_score`, optional
nullable `notes` (`none` = field omitted, `some none` = set to null).
There is no `user_id` field. -/
structure UpdateMoodEntryInput where
  id : ℤ
  mood_score : Option ℚ
  notes : Option (Option String)
deriving DecidableEq, Repr

/-- `updateMoodEntry` (`update_mood_entry.ts`): build the update object
with `updated_at := now` plus only the provided fields, run
`UPDATE ... WHERE id = input.id RETURNING *` (the only filter is the id —
the input has no user field), and throw the not-found error when no row
matched.  The pair is (call result, table after the call): on the error
path the update matched nothing, so the table is unchanged. -/
def updateMoodEntry (entries : List MoodEntry) (input : UpdateMoodEntryInput)
    (now : ℤ) : Except HandlerError MoodEntry × List MoodEntry :=
  let applyUpdate := fun (e : MoodEntry) =>
    { e with
      updated_at := now
      mood_score := match input.mood_score with | some q => q | none => e.mood_score
      notes := match input.notes with | some v => v | none => e.notes }
  let updated := entries.map (fun r => if r.id = input.id then applyUpdate r else r)
  match (entries.filter (fun e => e.id = input.id)).head? with
  | none => (.error .notFound, updated)
  | some e => (.ok (applyUpdate e), updated)

/-- The `updateMoodEntry` tRPC procedure: zod validates `mood_score` only
when the field is present. -/
def updateMoodEntryRoute (entries : List MoodEntry) (input : UpdateMoodEntryInput)
    (now : ℤ) : Except HandlerError MoodEntry × List MoodEntry :=
  match input.mood_score with
  | some q =>
    if moodScaleValid q then updateMoodEntry entries input now
    else (.error .validationError, entries)
  | none => updateMoodEntry entries input now

/-- All persisted mood scores are integers in 1..10. -/
def allScoresValid (entries : List MoodEntry) : Prop :=
  ∀ e ∈ entries, e.mood_score.den = 1 ∧ 1 ≤ e.mood_score ∧ e.mood_score ≤ 10

/-- The table after `updateMoodEntry` is the row-wise update of the rows
matching the input id. -/
theorem updateMoodEntry_snd (entries : List MoodEntry) (input : UpdateMoodEntryInput)
    (now : ℤ) :
    (updateMoodEntry entries input now).2 =
      entries.map (fun r =>
        if r.id = input.id then
          { r with
            updated_at := now
            mood_score := match input.mood_score with | some q => q | none => r.mood_score
            notes := match input.notes with | some v => v | none => r.notes }
        else r) := by
  simp only [updateMoodEntry]
  cases hh : (entries.filter (fun e => e.id = input.id)).head? <;> rfl

/-- C5: `moodScaleSchema` accepts exactly the integers 1..10; both routes
reject any other score before touching the store; and both routes preserve
the invariant that every persisted score is an integer in 1..10. -/
theorem moodScale_validation :
    (∀ q : ℚ, moodScaleValid q = true ↔ (q.den = 1 ∧ 1 ≤ q ∧ q ≤ 10)) ∧
    (∀ (entries : List MoodEntry) (input : CreateMoodEntryInput) (newId now : ℤ),
      ¬(input.mood_score.den = 1 ∧ 1 ≤ input.mood_score ∧ input.mood_score ≤ 10) →
      createMoodEntryRoute entries input newId now = .error .validationError) ∧
    (∀ (entries : List MoodEntry) (input : UpdateMoodEntryInput) (now : ℤ) (q : ℚ),
      input.mood_score = some q → ¬(q.den = 1 ∧ 1 ≤ q ∧ q ≤ 10) →
      updateMoodEntryRoute entries input now = (.error .validationError, entries)) ∧
    (∀ (entries : List MoodEntry) (input : CreateMoodEntryInput) (newId now : ℤ)
      (out : List MoodEntry), allScoresValid entries →
      createMoodEntryRoute entries input newId now = .ok out → allScoresValid out) ∧
    (∀ (entries : List MoodEntry) (input : UpdateMoodEntryInput) (now : ℤ),
      allScoresValid entries →
      allScoresValid (updateMoodEntryRoute entries input now).2) := by
  have hiff : ∀ q : ℚ, moodScaleValid q = true ↔ (q.den = 1 ∧ 1 ≤ q ∧ q ≤ 10) := by
    intro q
    simp [moodScaleValid, Bool.and_eq_true, decide_eq_true_eq, and_assoc]
  refine ⟨hiff, ?_, ?_, ?_, ?_⟩
  · intro entries input newId now h
    simp only [createMoodEntryRoute]
    rw [if_neg]
    intro hv
    exact h ((hiff input.mood_score).mp hv)
  · intro entries input now q hq h
    simp only [updateMoodEntryRoute, hq]
    rw [if_neg]
    intro hv
    exact h ((hiff q).mp hv)
  · intro entries input newId now out hinv hok
    simp only [createMoodEntryRoute] at hok
    by_cases hv : moodScaleValid input.mood_score = true
    · rw [if_pos hv] at hok
      obtain rfl : createMoodEntry entries input newId now = out := by
        exact Except.ok.inj hok
      intro e he
      simp only [createMoodEntry, List.mem_append, List.mem_singleton] at he
      rcases he with he | rfl
      · exact hinv e he
      · exact (hiff input.mood_score).mp hv
    · rw [if_neg hv] at hok
      exact absurd hok (by simp)
  · intro entries input now hinv
    have hsnd := updateMoodEntry_snd entries input now
    cases hq : input.mood_score with
    | none =>
      simp only [updateMoodEntryRoute, hq]
      rw [updateMoodEntry_snd]
      intro e he
      simp only [List.mem_map] at he
      obtain ⟨r, hr, rfl⟩ := he
      by_cases hid : r.id = input.id
      · simp only [if_pos hid, hq]
        exact hinv r hr
      · simp only [if_neg hid]
        exact hinv r hr
    | some q =>
      simp only [updateMoodEntryRoute, hq]
      by_cases hv : moodScaleValid q = true
      · rw [if_pos hv, updateMoodEntry_snd]
        intro e he
        simp only [List.mem_map] at he
        obtain ⟨r, hr, rfl⟩ := he
        by_cases hid : r.id = input.id
        · simp only [if_pos hid, hq]
          exact (hiff q).mp hv
        · simp only [if_neg hid]
          exact hinv r hr
      · rw [if_neg hv]
        exact hinv

/-- C5 witness: `moodScale_validation` applied at concrete inputs: the
non-integer score `21/2` is rejected on create, the out-of-range `11` on
update, and the invariant is carried through a successful create. -/
theorem moodScale_validation_witness :
    createMoodEntryRoute [] ⟨"u", 21 / 2, none⟩ 1 0 = .error .validationError ∧
    updateMoodEntryRoute [] ⟨1, some 11, none⟩ 0 = (.error .validationError, []) ∧
    allScoresValid [⟨1, "u", 5, none, 0, 0⟩, ⟨2, "u", 7, none, 0, 0⟩] :=
  ⟨moodScale_validation.2.1 [] ⟨"u", 21 / 2, none⟩ 1 0 (by norm_num),
   moodScale_validation.2.2.1 [] ⟨1, some 11, none⟩ 0 11 rfl (by norm_num),
   moodScale_validation.2.2.2.1 [⟨1, "u", 5, none, 0, 0⟩] ⟨"u", 7, none⟩ 2 0
     [⟨1, "u", 5, none, 0, 0⟩, ⟨2, "u", 7, none, 0, 0⟩]
     (by
       intro e he
       simp only [List.mem_singleton] at he
       subst he
       exact ⟨rfl, by norm_num, by norm_num⟩)
     rfl⟩

/-- C6: on a successful update, fields omitted from the input keep their
stored values (including id, owner and `created_at`), `updated_at` is set
to the call time, and it strictly exceeds the prior `updated_at` whenever
the call time does (the clock is a parameter of the model). -/
theorem updateMoodEntry_frame :
    ∀ (entries : List MoodEntry) (input : UpdateMoodEntryInput) (now : ℤ)
      (old ret : MoodEntry) (newEntries : List MoodEntry),
      (entries.filter (fun e => e.id = input.id)).head? = some old →
      updateMoodEntryRoute entries input now = (.ok ret, newEntries) →
      (input.mood_score = none → ret.mood_score = old.mood_score) ∧
      (input.notes = none → ret.notes = old.notes) ∧
      ret.id = old.id ∧ ret.user_id = old.user_id ∧ ret.created_at = old.created_at ∧
      ret.updated_at = now ∧
      (old.updated_at < now → old.updated_at < ret.updated_at) := by
  intro entries input now old ret newEntries hfilter hok
  have hupd : updateMoodEntry entries input now = (.ok ret, newEntries) := by
    cases hq : input.mood_score with
    | none => simpa only [updateMoodEntryRoute, hq] using hok
    | some q =>
      by_cases hv : moodScaleValid q = true
      · simp only [updateMoodEntryRoute, hq, if_pos hv] at hok
        exact hok
      · simp only [updateMoodEntryRoute, hq, if_neg hv, Prod.mk.injEq] at hok
        exact absurd hok.1 (by simp)
  simp only [updateMoodEntry, hfilter, Prod.mk.injEq, Except.ok.injEq] at hupd
  obtain ⟨hA, hB⟩ := hupd
  subst hA
  refine ⟨?_, ?_, rfl, rfl, rfl, rfl, fun h => h⟩
  · intro h
    simp [h]
  · intro h
    simp [h]

/-- C6 witness: `updateMoodEntry_frame` at a one-row store and an input
that omits both optional fields. -/
theorem updateMoodEntry_frame_witness :
    (⟨1, "u", 5, some "n", 0, 3⟩ : MoodEntry).mood_score =
      (⟨1, "u", 5, some "n", 0, 0⟩ : MoodEntry).mood_score ∧
    (⟨1, "u", 5, some "n", 0, 3⟩ : MoodEntry).updated_at = 3 ∧
    (⟨1, "u", 5, some "n", 0, 0⟩ : MoodEntry).updated_at <
      (⟨1, "u", 5, some "n", 0, 3⟩ : MoodEntry).updated_at :=
  let h := updateMoodEntry_frame [⟨1, "u", 5, some "n", 0, 0⟩] ⟨1, none, none⟩ 3
    ⟨1, "u", 5, some "n", 0, 0⟩ ⟨1, "u", 5, some "n", 0, 3⟩ [⟨1, "u", 5, some "n", 0, 3⟩]
    (by decide) rfl
  ⟨h.1 rfl, h.2.2.2.2.2.1, h.2.2.2.2.2.2 (by decide)⟩

/-- C7: counterexample.  The update input schema has no `user_id` field and
the handler filters by id only, so an update naming a mood entry owned by
`alice` succeeds for any caller — there is no per-user NotFound scoping. -/
theorem updateMoodEntry_cross_user_counterexample :
    (updateMoodEntryRoute [⟨1, "alice", 5, none, 0, 0⟩] ⟨1, some 7, none⟩ 3).1 =
      .ok ⟨1, "alice", 7, none, 0, 3⟩ := by
  rfl

/-- C7 (amended): `updateMoodEntry` fails with the not-found error, leaving
the table unchanged, exactly when no row at all has the given id; when a
row with the id exists the call succeeds regardless of which user owns it
(the returned row keeps its original owner). -/
theorem updateMoodEntry_id_only_scoping :
    ∀ (entries : List MoodEntry) (input : UpdateMoodEntryInput) (now : ℤ),
      ((entries.filter (fun e => e.id = input.id)).head? = none →
        updateMoodEntry entries input now = (.error .notFound, entries)) ∧
      (∀ old, (entries.filter (fun e => e.id = input.id)).head? = some old →
        ∃ ret, (updateMoodEntry entries input now).1 = .ok ret ∧
          ret.user_id = old.user_id) := by
  intro entries input now
  constructor
  · intro h
    have hnil : entries.filter (fun e => e.id = input.id) = [] :=
      List.head?_eq_none_iff.mp h
    have hno : ∀ r ∈ entries, ¬(r.id = input.id) := by
      intro r hr
      have := List.filter_eq_nil_iff.mp hnil r hr
      simpa using this
    have hsnd := updateMoodEntry_snd entries input now
    have hmap : (updateMoodEntry entries input now).2 = entries := by
      rw [hsnd, List.map_congr_left (fun r hr => if_neg (hno r hr))]
      exact List.map_id entries
    have hfst : (updateMoodEntry entries input now).1 = .error .notFound := by
      simp only [updateMoodEntry, h]
    calc updateMoodEntry entries input now
        = ((updateMoodEntry entries input now).1, (updateMoodEntry entries input now).2) := rfl
      _ = (.error .notFound, entries) := by rw [hfst, hmap]
  · intro old hold
    simp only [updateMoodEntry, hold]
    exact ⟨_, rfl, rfl⟩

/-- C7 witness: `updateMoodEntry_id_only_scoping` at an empty store (the
not-found branch) and at a store holding only an entry owned by `alice`
(the success-regardless-of-owner branch). -/
theorem updateMoodEntry_id_only_scoping_witness :
    updateMoodEntry [] ⟨1, none, none⟩ 0 = (.error .notFound, []) ∧
    (∃ ret, (updateMoodEntry [⟨1, "alice", 5, none, 0, 0⟩] ⟨1, some 7, none⟩ 3).1 =
      .ok ret ∧ ret.user_id = "alice") :=
  ⟨(updateMoodEntry_id_only_scoping [] ⟨1, none, none⟩ 0).1 rfl,
   (updateMoodEntry_id_only_scoping [⟨1, "alice", 5, none, 0, 0⟩] ⟨1, some 7, none⟩ 3).2
     ⟨1, "alice", 5, none, 0, 0⟩ (by decide)⟩

/-! ## Data export (`export_user_data.ts`) -/

/-- A generic user-owned row of one of the seven non-mood tables; only the
fields the export filter reads are modelled. -/
structure DbRow where
  id : ℤ
  user_id : String
deriving DecidableEq, Repr

/-- The eight tables read by `exportUserData`. -/
structure Db where
  mood_entries : List MoodEntry
  medications : List DbRow
  medication_logs : List DbRow
  supplements : List DbRow
  supplement_logs : List DbRow
  habits : List DbRow
  habit_logs : List DbRow
  reminders : List DbRow
deriving DecidableEq, Repr

/-- The `ExportData` document: eight lists plus the assembly-time
`exported_at` (a `Date` in the source, non-nullable by type). -/
structure ExportData where
  mood_entries : List MoodEntry
  medications : List DbRow
  medication_logs : List DbRow
  supplements : List DbRow
  supplement_logs : List DbRow
  habits : List DbRow
  habit_logs : List DbRow
  reminders : List DbRow
  exported_at : ℤ
deriving DecidableEq, Repr

/-- `exportUserData` (`export_user_data.ts`): one unfiltered (all-time,
all-status) read per table, each selecting exactly the rows whose
`user_id` equals the queried id, assembled with `exported_at := now`
(`new Date()` at assembly time). -/
def exportUserData (db : Db) (user_id : String) (now : ℤ) : ExportData :=
  { mood_entries := db.mood_entries.filter (fun r => r.user_id = user_id)
    medications := db.medications.filter (fun r => r.user_id = user_id)
    medication_logs := db.medication_logs.filter (fun r => r.user_id = user_id)
    supplements := db.supplements.filter (fun r => r.user_id = user_id)
    supplement_logs := db.supplement_logs.filter (fun r => r.user_id = user_id)
    habits := db.habits.filter (fun r => r.user_id = user_id)
    habit_logs := db.habit_logs.filter (fun r => r.user_id = user_id)
    reminders := db.reminders.filter (fun r => r.user_id = user_id)
    exported_at := now }

/-- C8: every row of every one of the eight exported lists belongs to the
queried user, and a user with zero records in every table receives eight
empty lists with `exported_at` set to the assembly time. -/
theorem exportUserData_user_scoped :
    (∀ (db : Db) (uid : String) (now : ℤ),
      (∀ r ∈ (exportUserData db uid now).mood_entries, r.user_id = uid) ∧
      (∀ r ∈ (exportUserData db uid now).medications, r.user_id = uid) ∧
      (∀ r ∈ (exportUserData db uid now).medication_logs, r.user_id = uid) ∧
      (∀ r ∈ (exportUserData db uid now).supplements, r.user_id = uid) ∧
      (∀ r ∈ (exportUserData db uid now).supplement_logs, r.user_id = uid) ∧
      (∀ r ∈ (exportUserData db uid now).habits, r.user_id = uid) ∧
      (∀ r ∈ (exportUserData db uid now).habit_logs, r.user_id = uid) ∧
      (∀ r ∈ (exportUserData db uid now).reminders, r.user_id = uid)) ∧
    (∀ (db : Db) (uid : String) (now : ℤ),
      (∀ r ∈ db.mood_entries, r.user_id ≠ uid) →
      (∀ r ∈ db.medications, r.user_id ≠ uid) →
      (∀ r ∈ db.medication_logs, r.user_id ≠ uid) →
      (∀ r ∈ db.supplements, r.user_id ≠ uid) →
      (∀ r ∈ db.supplement_logs, r.user_id ≠ uid) →
      (∀ r ∈ db.habits, r.user_id ≠ uid) →
      (∀ r ∈ db.habit_logs, r.user_id ≠ uid) →
      (∀ r ∈ db.reminders, r.user_id ≠ uid) →
      exportUserData db uid now = ⟨[], [], [], [], [], [], [], [], now⟩) := by
  constructor
  · intro db uid now
    refine ⟨?_, ?_, ?_, ?_, ?_, ?_, ?_, ?_⟩ <;>
      · intro r hr
        simp only [exportUserData, List.mem_filter, decide_eq_true_eq] at hr
        exact hr.2
  · intro db uid now h1 h2 h3 h4 h5 h6 h7 h8
    have e1 : db.mood_entries.filter (fun r => r.user_id = uid) = [] := by
      rw [List.filter_eq_nil_iff]; intro r hr; simpa using h1 r hr
    have e2 : db.medications.filter (fun r => r.user_id = uid) = [] := by
      rw [List.filter_eq_nil_iff]; intro r hr; simpa using h2 r hr
    have e3 : db.medication_logs.filter (fun r => r.user_id = uid) = [] := by
      rw [List.filter_eq_nil_iff]; intro r hr; simpa using h3 r hr
    have e4 : db.supplements.filter (fun r => r.user_id = uid) = [] := by
      rw [List.filter_eq_nil_iff]; intro r hr; simpa using h4 r hr
    have e5 : db.supplement_logs.filter (fun r => r.user_id = uid) = [] := by
      rw [List.filter_eq_nil_iff]; intro r hr; simpa using h5 r hr
    have e6 : db.habits.filter (fun r => r.user_id = uid) = [] := by
      rw [List.filter_eq_nil_iff]; intro r hr; simpa using h6 r hr
    have e7 : db.habit_logs.filter (fun r => r.user_id = uid) = [] := by
      rw [List.filter_eq_nil_iff]; intro r hr; simpa using h7 r hr
    have e8 : db.reminders.filter (fun r => r.user_id = uid) = [] := by
      rw [List.filter_eq_nil_iff]; intro r hr; simpa using h8 r hr
    simp only [exportUserData, e1, e2, e3, e4, e5, e6, e7, e8]

/-- C8 witness: `exportUserData_user_scoped` applied to a store holding
only rows of `bob`, queried for `alice`: all eight lists come back empty
and `exported_at` is the assembly time. -/
theorem exportUserData_user_scoped_witness :
    exportUserData
      ⟨[⟨1, "bob", 5, none, 0, 0⟩], [⟨1, "bob"⟩], [], [], [], [], [], [⟨2, "bob"⟩]⟩
      "alice" 7 = ⟨[], [], [], [], [], [], [], [], 7⟩ :=
  (exportUserData_user_scoped.2
    ⟨[⟨1, "bob", 5, none, 0, 0⟩], [⟨1, "bob"⟩], [], [], [], [], [], [⟨2, "bob"⟩]⟩
    "alice" 7 (by decide) (by decide) (by decide) (by decide) (by decide) (by decide)
    (by decide) (by decide))
